import Mathlib

/-!
Verification development for the carver-feeds-sdk repository.

The definitions below are a shallow embedding of the SDK's core:

* `make_request` embeds `CarverFeedsAPIClient._make_request`
  (src/carver_feeds/carver_api.py), parametrised over the sequence of HTTP
  status codes the server returns (the `resp` argument gives the status of the
  n-th request issued).  Sleeping and logging are irrelevant to control flow
  and are omitted; the result records the final outcome together with the
  total number of HTTP requests issued.
* `paginate` embeds `CarverFeedsAPIClient._paginate`, parametrised over the
  backend (`fetchPage` maps an offset to the record list the extracted
  response carries).  A fuel argument makes the `while True` loop total; all
  theorems supply enough fuel for the loop to finish on its own.
* `get_annotations` is modelled from the spec (see its doc string): the method
  itself is not part of the sources, only its tests and examples are.
* `json_to_dataframe` embeds `FeedsDataManager._json_to_dataframe`
  (src/carver_feeds/data_manager.py); a pandas `DataFrame` is modelled by the
  structure `DF`: a column list plus one association list per row.  The rows
  produced by `pd.DataFrame(list_of_dicts)` are materialised over the column
  list, with the pandas rule that a cell missing from the input record is the
  absent marker `JVal.null` (NaN and None are identified, which is exactly how
  the code treats them: `fillna` replaces both).
* `get_topics_df_core`, `get_feeds_df_core`, `get_entries_df_core` embed the
  DataFrame pipelines of `get_topics_df`, `get_feeds_df` and `get_entries_df`
  after the API fetch; `pd.to_datetime(..., errors="coerce")` is an opaque
  per-cell function `coerce` (the claims under study never inspect date
  columns), and `get_entries_df_core` covers the `fetch_content=False` branch
  of `_handle_s3_fetch` (the content column is set to the absent marker).
* `extract_metadata_fields` embeds `FeedsDataManager._extract_metadata_fields`;
  an `extracted_metadata` value that is neither absent, null nor a mapping
  makes the Python code crash on `.get`, which the embedding reports as
  `Except.error`.
* `filter_by_topic_loaded`, `filter_by_feed_loaded`, `filter_by_date`,
  `filter_by_active`, `search_entries`, `to_dataframe` embed the Loaded-state
  paths of `EntryQueryEngine` (src/carver_feeds/query_engine.py).  The regex
  engine behind `Series.str.contains(keyword, case=..., regex=True)` is a
  parameter `matcher : Bool → String → String → Bool` (case-sensitivity flag,
  pattern, string); `literalSearch` instantiates it faithfully for literal
  patterns, where `re.search` is plain substring search (in particular any
  pattern matches a null-filled cell iff it matches the empty string, and the
  empty pattern does).  Column access on a frame lacking the column raises
  `KeyError` in pandas, which the embedding reports as `Except.error`.
-/

set_option linter.unusedVariables false

namespace CarverFeeds

/-- JSON-like values as they appear in API responses and DataFrame cells.
`null` doubles as the absent-value marker (pandas NaN/None). -/
inductive JVal where
  | null : JVal
  | bool : Bool → JVal
  | num : Int → JVal
  | str : String → JVal
  | arr : List JVal → JVal
  | obj : List (String × JVal) → JVal
deriving Repr

/-- A JSON record / dict: an association list from keys to values. -/
abbrev Rec := List (String × JVal)

/-- First-match lookup in a record, `none` when the key is absent. -/
def getKey : Rec → String → Option JVal
  | [], _ => none
  | (k, v) :: rest, key => if k = key then some v else getKey rest key

/-- Python `dict.get(key, default)`: the stored value (even if null) when the
key is present, the default otherwise. -/
def getD (r : Rec) (k : String) (d : JVal) : JVal :=
  (getKey r k).getD d

/-- Python `dict[key] = v`: replace the first binding of `key`, or append. -/
def setKey : Rec → String → JVal → Rec
  | [], key, v => [(key, v)]
  | (k, w) :: rest, key, v =>
      if k = key then (key, v) :: rest else (k, w) :: setKey rest key v

/-! ## Transport: `_make_request` and `_paginate` (carver_api.py) -/

/-- Final classification of one logical request, mirroring the exception
taxonomy of `carver_api.py` (success / AuthenticationError / RateLimitError /
CarverAPIError). -/
inductive ReqOutcome where
  | success : ReqOutcome
  | authError : ReqOutcome
  | rateLimitError : ReqOutcome
  | apiError : ReqOutcome
deriving DecidableEq, Repr

/-- Embedding of `CarverFeedsAPIClient._make_request`.  `resp n` is the HTTP
status code returned by the n-th request (0-based; the n-th request happens at
`retry_count = n`).  The second component of the result is the total number of
requests issued by the recursive chain. -/
def make_request (resp : Nat → Nat) (maxRetries : Nat) (retryCount : Nat) :
    ReqOutcome × Nat :=
  let code := resp retryCount
  if code = 200 then (.success, retryCount + 1)
  else if code = 401 then (.authError, retryCount + 1)
  else if code = 429 then
    if retryCount < maxRetries then make_request resp maxRetries (retryCount + 1)
    else (.rateLimitError, retryCount + 1)
  else if 500 ≤ code then
    if retryCount < maxRetries then make_request resp maxRetries (retryCount + 1)
    else (.apiError, retryCount + 1)
  else (.apiError, retryCount + 1)
termination_by maxRetries + 1 - retryCount
decreasing_by all_goals omega

/-- Loop body of `_paginate`: `fetchPage offset` is the record list extracted
from the response of the request at that offset; `fuel` bounds the number of
iterations of the `while True` loop (`none` means the fuel ran out, which
never happens in the theorems below). -/
def paginateAux {α : Type} (fetchPage : Nat → List α) (limit : Nat)
    (fetchAll : Bool) : Nat → List α → Nat → Nat → Option (List α × Nat)
  | _, _, _, 0 => none
  | offset, acc, reqs, fuel + 1 =>
      let results := fetchPage offset
      let acc2 := acc ++ results
      let reqs2 := reqs + 1
      if fetchAll = false ∨ results.length < limit then some (acc2, reqs2)
      else paginateAux fetchPage limit fetchAll (offset + limit) acc2 reqs2 fuel

/-- Embedding of `CarverFeedsAPIClient._paginate`: start at offset 0 with an
empty accumulator; the result pairs all fetched records with the number of
requests issued. -/
def paginate {α : Type} (fetchPage : Nat → List α) (limit : Nat)
    (fetchAll : Bool) (fuel : Nat) : Option (List α × Nat) :=
  paginateAux fetchPage limit fetchAll 0 [] 0 fuel

/-- An honest backend over a fixed record store: the page at `offset` is the
next `limit` records of `db`. -/
def pageOf {α : Type} (db : List α) (limit offset : Nat) : List α :=
  (db.drop offset).take limit

/-- Backend of exactly 2500 records for the pagination scenario of the spec. -/
def db2500 : List Nat := List.range 2500

/-! ## Annotations client (modelled from the spec) -/

/-- A fully-assembled HTTP request: method, endpoint and query parameters. -/
structure ApiCall where
  method : String
  endpoint : String
  params : List (String × String)
deriving DecidableEq, Repr

/-- Python `",".join(ids)`. -/
def commaJoin (ids : List String) : String := String.intercalate "," ids

/-- Modelled from the spec: the `get_annotations` client method is missing
from the sources under src (only its tests and examples refer to it).  Spec,
section 6: "GET annotations with exactly one of three mutually-exclusive
filter query parameters (`feed_entry_ids_in`, `topic_ids_in`, `user_ids_in`,
each a comma-joined id list) — supplying zero or more-than-one of these is a
caller error raised before any network call, as is supplying an empty id list
for the chosen filter."  The result is the request that would be issued, or
the validation error raised before any network call. -/
def get_annotations (feedEntryIds topicIds userIds : Option (List String)) :
    Except String ApiCall :=
  let provided := [feedEntryIds.isSome, topicIds.isSome, userIds.isSome].count true
  if provided = 0 then
    .error "ValidationError: At least one filter must be provided"
  else if 2 ≤ provided then
    .error "ValidationError: Only one filter can be used per request"
  else
    match feedEntryIds, topicIds, userIds with
    | some ids, none, none =>
        if ids.isEmpty then
          .error "ValidationError: feed_entry_ids cannot be an empty list"
        else
          .ok ⟨"GET", "/api/v1/core/annotations",
            [("feed_entry_ids_in", commaJoin ids)]⟩
    | none, some ids, none =>
        if ids.isEmpty then
          .error "ValidationError: topic_ids cannot be an empty list"
        else
          .ok ⟨"GET", "/api/v1/core/annotations",
            [("topic_ids_in", commaJoin ids)]⟩
    | none, none, some ids =>
        if ids.isEmpty then
          .error "ValidationError: user_ids cannot be an empty list"
        else
          .ok ⟨"GET", "/api/v1/core/annotations",
            [("user_ids_in", commaJoin ids)]⟩
    | _, _, _ => .error "ValidationError: unreachable"

/-! ## Schema normalizer: `_json_to_dataframe` (data_manager.py) -/

/-- A pandas DataFrame: a column list plus one materialised record per row
(every column has a binding in every row; a value that was missing in the
input is the absent marker `JVal.null`). -/
structure DF where
  cols : List String
  rows : List Rec
deriving Repr

/-- The keys of a record, in order. -/
def keysOf (r : Rec) : List String := r.map Prod.fst

/-- Append the unseen keys of `ks` to `acc`, preserving first-seen order. -/
def dedupKeys : List String → List String → List String
  | acc, [] => acc
  | acc, k :: ks => if k ∈ acc then dedupKeys acc ks else dedupKeys (acc ++ [k]) ks

/-- Column list of `pd.DataFrame(list_of_dicts)`: the union of the records'
keys in first-seen order. -/
def discoveryCols (data : List Rec) : List String :=
  data.foldl (fun acc r => dedupKeys acc (keysOf r)) []

/-- Materialise one record over a column list: every column gets a cell, a
column the record lacks gets the absent marker. -/
def matRow (cols : List String) (r : Rec) : Rec :=
  cols.map (fun c => (c, getD r c JVal.null))

/-- Embedding of `FeedsDataManager._json_to_dataframe`.  Empty data yields an
empty frame with exactly the expected columns; otherwise the frame is built
from the data, the expected columns that are missing are added (filled with
the absent marker) and the columns are reordered: expected columns first, in
the given order, then the extra columns in discovery order.  An empty
`expected` list is falsy in Python, which skips the schema-validation block
entirely. -/
def json_to_dataframe (data : List Rec) (expected : List String) : DF :=
  if data.isEmpty then
    if expected.isEmpty then ⟨[], []⟩ else ⟨expected, []⟩
  else
    let cols0 := discoveryCols data
    if expected.isEmpty then
      ⟨cols0, data.map (matRow cols0)⟩
    else
      let allCols := cols0 ++ expected.filter (fun c => c ∉ cols0)
      let ordered := expected.filter (fun c => c ∈ allCols)
        ++ allCols.filter (fun c => c ∉ expected)
      ⟨ordered, data.map (matRow ordered)⟩

/-! ## Data-manager pipelines (data_manager.py) -/

/-- Expected columns of `get_topics_df`. -/
def topics_expected_columns : List String :=
  ["id", "name", "description", "created_at", "updated_at", "is_active"]

/-- Expected columns of `get_feeds_df`. -/
def feeds_expected_columns : List String :=
  ["id", "name", "url", "topic_id", "topic_name", "description", "created_at",
   "is_active"]

/-- Expected columns of `get_entries_df`. -/
def entries_expected_columns : List String :=
  ["id", "title", "link", "content_markdown", "feed_id", "topic_id",
   "content_status", "content_timestamp", "s3_content_md_path",
   "s3_content_html_path", "s3_aggregated_content_md_path", "published_date",
   "created_at", "is_active"]

/-- `df[col] = df[col].map(coerce)` guarded by column presence: the model of
one `pd.to_datetime(df[col], errors="coerce")` assignment. -/
def coerceCol (coerce : JVal → JVal) (df : DF) (col : String) : DF :=
  if col ∈ df.cols then
    ⟨df.cols, df.rows.map (fun r => setKey r col (coerce (getD r col JVal.null)))⟩
  else df

/-- The date-conversion loop `for col in date_columns: ...`. -/
def coerceCols (coerce : JVal → JVal) (df : DF) (cols : List String) : DF :=
  cols.foldl (coerceCol coerce) df

/-- Python truthiness `bool(x)` on a JSON value. -/
def pyBool : JVal → Bool
  | .null => false
  | .bool b => b
  | .num n => n != 0
  | .str s => s != ""
  | .arr xs => !xs.isEmpty
  | .obj fs => !fs.isEmpty

/-- `cell.fillna(True).astype(bool)` on one cell: an absent cell becomes
`True`, every other cell its Python truthiness. -/
def fillNaTrue : JVal → JVal
  | JVal.null => JVal.bool true
  | v => JVal.bool (pyBool v)

/-- `df["is_active"] = df["is_active"].fillna(True).astype(bool)` guarded by
column presence. -/
def fillActiveBool (df : DF) : DF :=
  if "is_active" ∈ df.cols then
    ⟨df.cols, df.rows.map (fun r =>
      setKey r "is_active" (fillNaTrue (getD r "is_active" JVal.null)))⟩
  else df

/-- Pipeline of `get_topics_df` after the API fetch: normalize against the
expected columns, coerce the date columns, make `is_active` boolean. -/
def get_topics_df_core (coerce : JVal → JVal) (topicsData : List Rec) : DF :=
  let df := json_to_dataframe topicsData topics_expected_columns
  let df := coerceCols coerce df ["created_at", "updated_at"]
  fillActiveBool df

/-- The topic-flattening loop of `get_feeds_df`: when `feed["topic"]` is a
dict, copy its `id` and `name` into `topic_id` / `topic_name`. -/
def flattenTopic (feed : Rec) : Rec :=
  match getKey feed "topic" with
  | some (JVal.obj t) =>
      setKey (setKey feed "topic_id" (getD t "id" JVal.null))
        "topic_name" (getD t "name" JVal.null)
  | _ => feed

/-- Cell comparison `cell == some_string` as pandas evaluates it elementwise:
only a string cell with the same characters compares equal. -/
def cellEqStr : JVal → String → Bool
  | .str s, t => s == t
  | _, _ => false

/-- Pipeline of `get_feeds_df` after the API fetch: flatten the topic object,
normalize, coerce `created_at`, make `is_active` boolean, then apply the
client-side `topic_id` filter when one was supplied (an empty string is falsy
in Python and means no filter). -/
def get_feeds_df_core (coerce : JVal → JVal) (feedsData : List Rec)
    (topicId : Option String) : DF :=
  let data := feedsData.map flattenTopic
  let df := json_to_dataframe data feeds_expected_columns
  let df := coerceCols coerce df ["created_at"]
  let df := fillActiveBool df
  if topicId.getD "" ≠ "" then
    if "topic_id" ∈ df.cols then
      ⟨df.cols, df.rows.filter
        (fun r => cellEqStr (getD r "topic_id" JVal.null) (topicId.getD ""))⟩
    else df
  else df

/-- Embedding of `FeedsDataManager._extract_metadata_fields`: lift the nested
`extracted_metadata` fields to the top level.  An absent or null metadata
object passes the record through unchanged; a metadata value that is not a
mapping crashes the Python code on `.get` (reported as `Except.error`). -/
def extract_metadata_fields (entry : Rec) : Except String Rec :=
  match getKey entry "extracted_metadata" with
  | none => .ok entry
  | some JVal.null => .ok entry
  | some (JVal.obj meta) =>
      let c := setKey entry "feed_id" (getD meta "feed_id" (getD entry "feed_id" JVal.null))
      let c := setKey c "topic_id" (getD meta "topic_id" JVal.null)
      let c := setKey c "content_status" (getD meta "status" JVal.null)
      let c := setKey c "content_timestamp" (getD meta "timestamp" JVal.null)
      let c := setKey c "s3_content_md_path" (getD meta "s3_content_md_path" JVal.null)
      let c := setKey c "s3_content_html_path" (getD meta "s3_content_html_path" JVal.null)
      let c := setKey c "s3_aggregated_content_md_path"
        (getD meta "s3_aggregated_content_md_path" JVal.null)
      .ok (setKey c "extracted_metadata_full" (JVal.obj meta))
  | some _ => .error "AttributeError: extracted_metadata is not a mapping"

/-- The metadata-extraction list comprehension of `get_entries_df`: a crash on
any record propagates. -/
def extractAll : List Rec → Except String (List Rec)
  | [] => .ok []
  | e :: es =>
      match extract_metadata_fields e with
      | .error m => .error m
      | .ok e2 =>
          match extractAll es with
          | .error m => .error m
          | .ok es2 => .ok (e2 :: es2)

/-- `df[dst] = df[src]` when `src` exists, else `df[dst] = pd.NaT`: the
`published_date` → `published_at` reconciliation of `get_entries_df`. -/
def setColCopy (df : DF) (dst src : String) : DF :=
  let cols := if dst ∈ df.cols then df.cols else df.cols ++ [dst]
  if src ∈ df.cols then
    ⟨cols, df.rows.map (fun r => setKey r dst (getD r src JVal.null))⟩
  else
    ⟨cols, df.rows.map (fun r => setKey r dst JVal.null)⟩

/-- `df[col] = None`: the `fetch_content=False` branch of `_handle_s3_fetch`. -/
def setColConst (df : DF) (col : String) (v : JVal) : DF :=
  let cols := if col ∈ df.cols then df.cols else df.cols ++ [col]
  ⟨cols, df.rows.map (fun r => setKey r col v)⟩

/-- Pipeline of `get_entries_df` after the API fetch (with
`fetch_content=False`): extract metadata, normalize, reconcile the published
date, coerce the date columns, make `is_active` boolean, blank the content
column. -/
def get_entries_df_core (coerce : JVal → JVal) (entriesData : List Rec) :
    Except String DF :=
  match extractAll entriesData with
  | .error m => .error m
  | .ok processed =>
      let df := json_to_dataframe processed entries_expected_columns
      let df := setColCopy df "published_at" "published_date"
      let df := coerceCols coerce df ["published_at", "created_at", "content_timestamp"]
      let df := fillActiveBool df
      .ok (setColConst df "content_markdown" JVal.null)

/-! ## Query engine, Loaded-state operations (query_engine.py) -/

/-- `series.fillna('').str.contains(pat, ...)` on one cell: a string cell is
matched by the regex engine, a null cell is filled with the empty string
first, any other cell yields NaN from the `.str` accessor and `na=False`
makes that a non-match. -/
def cellMatches (matcher : String → String → Bool) (pat : String) : JVal → Bool
  | .str s => matcher pat s
  | .null => matcher pat ""
  | _ => false

/-- Cell comparison `cell == some_bool` as pandas evaluates it elementwise. -/
def cellEqBool : JVal → Bool → Bool
  | .bool b, c => b == c
  | _, _ => false

/-- Loaded-state path of `EntryQueryEngine.filter_by_topic`.  The empty string
is falsy in Python, so it counts as "not provided".  Equality filtering on
`topic_id` accesses the column unguarded: a frame without it raises KeyError.
Name filtering is guarded by column presence and uses the (case-insensitive)
regex matcher. -/
def filter_by_topic_loaded (matcher : Bool → String → String → Bool) (df : DF)
    (topicId topicName : Option String) : Except String DF :=
  if topicId.getD "" == "" && topicName.getD "" == "" then .ok df
  else if topicId.getD "" != "" then
    if "topic_id" ∈ df.cols then
      .ok ⟨df.cols, df.rows.filter
        (fun r => cellEqStr (getD r "topic_id" JVal.null) (topicId.getD ""))⟩
    else .error "KeyError: topic_id"
  else
    if "topic_name" ∈ df.cols then
      .ok ⟨df.cols, df.rows.filter
        (fun r => cellMatches (matcher false) (topicName.getD "")
          (getD r "topic_name" JVal.null))⟩
    else .ok df

/-- Loaded-state path of `EntryQueryEngine.filter_by_feed`; mirror image of
`filter_by_topic_loaded`. -/
def filter_by_feed_loaded (matcher : Bool → String → String → Bool) (df : DF)
    (feedId feedName : Option String) : Except String DF :=
  if feedId.getD "" == "" && feedName.getD "" == "" then .ok df
  else if feedId.getD "" != "" then
    if "feed_id" ∈ df.cols then
      .ok ⟨df.cols, df.rows.filter
        (fun r => cellEqStr (getD r "feed_id" JVal.null) (feedId.getD ""))⟩
    else .error "KeyError: feed_id"
  else
    if "feed_name" ∈ df.cols then
      .ok ⟨df.cols, df.rows.filter
        (fun r => cellMatches (matcher false) (feedName.getD "")
          (getD r "feed_name" JVal.null))⟩
    else .ok df

/-- `cell >= bound` on the datetime column: only a timestamp cell can pass,
the NaT marker compares false. -/
def cellGe (v : JVal) (bound : Int) : Bool :=
  match v with
  | .num t => bound ≤ t
  | _ => false

/-- `cell <= bound` on the datetime column; NaT compares false. -/
def cellLe (v : JVal) (bound : Int) : Bool :=
  match v with
  | .num t => t ≤ bound
  | _ => false

/-- Embedding of `EntryQueryEngine.filter_by_date` (timestamps as integers;
the timezone promotion only normalises the bound representation and the
dtype coercion is the identity on an already datetime-typed column).  Both
bounds absent means no filtering, a missing column means no filtering, else
the start bound then the end bound are applied in sequence, inclusively. -/
def filter_by_date (df : DF) (startDate endDate : Option Int) : DF :=
  if startDate.isNone ∧ endDate.isNone then df
  else if "entry_published_at" ∉ df.cols then df
  else
    let rows1 := match startDate with
      | some d => df.rows.filter (fun r => cellGe (getD r "entry_published_at" JVal.null) d)
      | none => df.rows
    let rows2 := match endDate with
      | some d => rows1.filter (fun r => cellLe (getD r "entry_published_at" JVal.null) d)
      | none => rows1
    ⟨df.cols, rows2⟩

/-- Embedding of `EntryQueryEngine.filter_by_active`: equality filter on the
`entry_is_active` column, guarded by column presence. -/
def filter_by_active (df : DF) (isActive : Bool) : DF :=
  if "entry_is_active" ∉ df.cols then df
  else ⟨df.cols, df.rows.filter
    (fun r => cellEqBool (getD r "entry_is_active" JVal.null) isActive)⟩

/-- The search-field alias table of `search_entries`. -/
def field_mapping : List (String × String) :=
  [("title", "entry_title"), ("content_markdown", "entry_content_markdown"),
   ("link", "entry_link"), ("description", "entry_description"),
   ("entry_title", "entry_title"),
   ("entry_content_markdown", "entry_content_markdown"),
   ("entry_link", "entry_link"), ("entry_description", "entry_description")]

/-- Default search field of the query engine. -/
def DEFAULT_SEARCH_FIELD : String := "entry_content_markdown"

/-- The field-resolution loop of `search_entries`: map every requested field
through the alias table, skipping unknown names. -/
def mapSearchFields (fields : List String) : List String :=
  fields.filterMap (fun f => field_mapping.lookup f)

/-- Mask contribution of one keyword for one row: OR over the requested
fields, each guarded by column presence. -/
def rowKeywordMask (matcher : Bool → String → String → Bool) (cs : Bool)
    (df : DF) (fields : List String) (k : String) (r : Rec) : Bool :=
  fields.any (fun f => decide (f ∈ df.cols)
    && cellMatches (matcher cs) k (getD r f JVal.null))

/-- Embedding of `EntryQueryEngine.search_entries` (the single-string
overload is the one-element list).  No keywords or no resolvable search
fields leave the row set unchanged; `match_all=True` ANDs the per-keyword
masks, `match_all=False` ORs everything. -/
def search_entries (matcher : Bool → String → String → Bool) (df : DF)
    (keywords : List String) (searchFields : Option (List String))
    (caseSensitive matchAll : Bool) : DF :=
  let fields := searchFields.getD [DEFAULT_SEARCH_FIELD]
  if keywords.isEmpty then df
  else
    let actualFields := mapSearchFields fields
    if actualFields.isEmpty then df
    else if matchAll then
      ⟨df.cols, df.rows.filter
        (fun r => keywords.all (fun k => rowKeywordMask matcher caseSensitive df actualFields k r))⟩
    else
      ⟨df.cols, df.rows.filter
        (fun r => keywords.any (fun k => rowKeywordMask matcher caseSensitive df actualFields k r))⟩

/-- Embedding of `EntryQueryEngine.to_dataframe` in the Loaded state: a copy
of the current row set. -/
def to_dataframe (df : DF) : DF := df

/-- ASCII case-insensitive character equality (the effect of
`re.IGNORECASE`), expressed by comparison only. -/
def charEqCI (a b : Char) : Bool :=
  a == b
  || (decide (65 ≤ a.toNat) && decide (a.toNat ≤ 90) && (b.toNat == a.toNat + 32))
  || (decide (65 ≤ b.toNat) && decide (b.toNat ≤ 90) && (a.toNat == b.toNat + 32))

/-- Does `pat` occur at the start of `hay`, under character equality `eq`? -/
def charsStartWith (eq : Char → Char → Bool) : List Char → List Char → Bool
  | [], _ => true
  | _ :: _, [] => false
  | a :: as, b :: bs => eq a b && charsStartWith eq as bs

/-- Does `pat` occur anywhere in `hay`?  The empty pattern occurs in every
string, matching `re.search` on an empty pattern. -/
def hasSubChars (eq : Char → Char → Bool) (pat : List Char) : List Char → Bool
  | [] => charsStartWith eq pat []
  | b :: bs => charsStartWith eq pat (b :: bs) || hasSubChars eq pat bs

/-- `re.search(pat, s)` for a literal pattern `pat`: substring search, with
`re.IGNORECASE` character comparison when the case flag is off. -/
def literalSearch (cs : Bool) (pat s : String) : Bool :=
  if cs then hasSubChars (fun a b => a == b) pat.toList s.toList
  else hasSubChars charEqCI pat.toList s.toList

/-! ## Concrete sample data used by counterexamples and witnesses -/

/-- The empty DataFrame `pd.DataFrame()`: the row set the hierarchy assembler
returns when zero feeds or zero entries were found. -/
def emptyDF : DF := ⟨[], []⟩

/-- An empty row set that kept its schema columns. -/
def emptySchemaDF : DF := ⟨["topic_id", "feed_id", "topic_name", "feed_name",
  "entry_published_at", "entry_is_active", "entry_title",
  "entry_content_markdown"], []⟩

/-- A single row whose `entry_title` cell is null. -/
def nullTitleRow : Rec := [("entry_title", JVal.null)]

/-- A one-row frame with a null `entry_title` cell. -/
def nullTitleDF : DF := ⟨["entry_title"], [nullTitleRow]⟩

/-- An entry whose caller-injected `feed_id` is overridden by an explicitly
null metadata `feed_id`. -/
def entryW : Rec :=
  [("feed_id", JVal.str "caller"),
   ("extracted_metadata", JVal.obj [("feed_id", JVal.null)])]

/-! ## Helper lemmas: record lookup and update -/

theorem getKey_setKey_same (r : Rec) (k : String) (v : JVal) :
    getKey (setKey r k v) k = some v := by
  induction r with
  | nil => simp [setKey, getKey]
  | cons p rest ih =>
      by_cases h : p.1 = k
      · simp [setKey, getKey, h]
      · simp [setKey, getKey, h, ih]

theorem getKey_setKey_ne (r : Rec) (k k2 : String) (v : JVal) (h : k2 ≠ k) :
    getKey (setKey r k v) k2 = getKey r k2 := by
  induction r with
  | nil => simp [setKey, getKey, Ne.symm h]
  | cons p rest ih =>
      by_cases hp : p.1 = k
      · simp [setKey, getKey, hp, Ne.symm h]
      · simp [setKey, getKey, hp, ih]

theorem getKey_setKey (r : Rec) (k k2 : String) (v : JVal) :
    getKey (setKey r k v) k2 = if k2 = k then some v else getKey r k2 := by
  by_cases h : k2 = k
  · subst h; simp [getKey_setKey_same]
  · simp [h, getKey_setKey_ne r k k2 v h]

/-! ## Helper lemmas: transport -/

theorem make_request_all429 (resp : Nat → Nat) (N : Nat)
    (hresp : ∀ i, i ≤ N → resp i = 429) :
    ∀ d rc, N = rc + d → make_request resp N rc = (.rateLimitError, N + 1) := by
  intro d
  induction d with
  | zero =>
      intro rc hrc
      have h1 : resp rc = 429 := hresp rc (by omega)
      rw [make_request]
      simp only [h1]
      norm_num
      rw [if_neg (by omega)]
      congr 1
      omega
  | succ n ih =>
      intro rc hrc
      have h1 : resp rc = 429 := hresp rc (by omega)
      rw [make_request]
      simp only [h1]
      norm_num
      rw [if_pos (by omega)]
      exact ih (rc + 1) (by omega)

theorem make_request_429_then_200 (resp : Nat → Nat) (N k : Nat) (hk : k ≤ N)
    (h429 : ∀ i, i < k → resp i = 429) (h200 : resp k = 200) :
    ∀ d rc, k = rc + d → make_request resp N rc = (.success, k + 1) := by
  intro d
  induction d with
  | zero =>
      intro rc hrc
      have hrck : rc = k := by omega
      subst hrck
      rw [make_request]
      simp [h200]
  | succ n ih =>
      intro rc hrc
      have h1 : resp rc = 429 := h429 rc (by omega)
      rw [make_request]
      simp only [h1]
      norm_num
      rw [if_pos (by omega)]
      exact ih (rc + 1) (by omega)

theorem paginateAux_honest {α : Type} (db : List α) (limit : Nat)
    (hl : 0 < limit) :
    ∀ (fuel offset : Nat) (acc : List α) (reqs : Nat),
      (db.drop offset).length / limit + 1 ≤ fuel →
      paginateAux (pageOf db limit) limit true offset acc reqs fuel
        = some (acc ++ db.drop offset, reqs + ((db.drop offset).length / limit + 1)) := by
  intro fuel
  induction fuel with
  | zero => intro offset acc reqs h; exact absurd h (Nat.not_succ_le_zero _)
  | succ n ih =>
      intro offset acc reqs h
      simp only [paginateAux]
      by_cases hlt : (pageOf db limit offset).length < limit
      · rw [if_pos (Or.inr hlt)]
        have hrest : (db.drop offset).length < limit := by
          have h2 := hlt
          rw [pageOf, List.length_take] at h2
          omega
        have hpage : pageOf db limit offset = db.drop offset := by
          rw [pageOf]
          exact List.take_of_length_le (Nat.le_of_lt hrest)
        have hdiv : (db.drop offset).length / limit = 0 := Nat.div_eq_of_lt hrest
        rw [hpage, hdiv]
      · rw [if_neg (by simp [hlt])]
        have hge : limit ≤ (db.drop offset).length := by
          rw [pageOf, List.length_take] at hlt
          omega
        have key : db.drop (offset + limit) = (db.drop offset).drop limit := by
          rw [List.drop_drop, Nat.add_comm]
        have hsub : (db.drop offset).length / limit
            = ((db.drop offset).length - limit) / limit + 1 :=
          Nat.div_eq_sub_div hl hge
        have cond : (db.drop (offset + limit)).length / limit + 1 ≤ n := by
          rw [key, List.length_drop]
          omega
        rw [ih (offset + limit) (acc ++ pageOf db limit offset) (reqs + 1) cond]
        have h1 : acc ++ pageOf db limit offset ++ db.drop (offset + limit)
            = acc ++ db.drop offset := by
          rw [key, List.append_assoc, pageOf, List.take_append_drop]
        have h2 : reqs + 1 + ((db.drop (offset + limit)).length / limit + 1)
            = reqs + ((db.drop offset).length / limit + 1) := by
          rw [key, List.length_drop]
          omega
        rw [h1, h2]

theorem paginate_honest {α : Type} (db : List α) (limit : Nat) (hl : 0 < limit)
    (fuel : Nat) (hf : db.length / limit + 1 ≤ fuel) :
    paginate (pageOf db limit) limit true fuel = some (db, db.length / limit + 1) := by
  have h := paginateAux_honest db limit hl fuel 0 [] 0 (by simpa using hf)
  simpa [paginate] using h

theorem db2500_length : db2500.length = 2500 := by
  rw [db2500, List.length_range]

/-! ## Claim C1 -/

/-- Claim C1 counterexample: with `max_retries = 3` and a backend answering
429 to every request, `_make_request` raises RateLimitError but 4 requests
were attempted in total, not `max_retries = 3` as the claim states. -/
theorem c1_counterexample :
    make_request (fun _ => 429) 3 0 = (.rateLimitError, 4) ∧
    (make_request (fun _ => 429) 3 0).2 ≠ 3 := by
  have h : make_request (fun _ => 429) 3 0 = (.rateLimitError, 4) := by
    simp [make_request]
  exact ⟨h, by rw [h]; norm_num⟩

/-- Claim C1 (amended): for a client with `max_retries = N`, if every request
returns 429, `_make_request` raises RateLimitError after exactly N + 1
requests (the initial attempt plus N retries); and a streak of k ≤ N
responses of 429 followed by a 200 succeeds after exactly k + 1 requests. -/
theorem c1_retry_amended (resp : Nat → Nat) (N : Nat) :
    ((∀ i, i ≤ N → resp i = 429) →
      make_request resp N 0 = (.rateLimitError, N + 1)) ∧
    (∀ k, k ≤ N → (∀ i, i < k → resp i = 429) → resp k = 200 →
      make_request resp N 0 = (.success, k + 1)) := by
  constructor
  · intro h
    exact make_request_all429 resp N h N 0 (by omega)
  · intro k hk h429 h200
    exact make_request_429_then_200 resp N k hk h429 h200 k 0 (by omega)

/-- Witness for `c1_retry_amended` at a concrete backend and `max_retries = 3`. -/
theorem c1_retry_amended_witness :
    make_request (fun _ => 429) 3 0 = (.rateLimitError, 4) ∧
    make_request (fun i => if i < 2 then 429 else 200) 3 0 = (.success, 3) :=
  ⟨(c1_retry_amended (fun _ => 429) 3).1 (fun i _ => rfl),
   (c1_retry_amended (fun i => if i < 2 then 429 else 200) 3).2 2 (by omega)
     (fun i hi => by simp [hi]) (by norm_num)⟩

/-! ## Claim C4 -/

/-- Claim C4: `_paginate` with `fetch_all=false` issues exactly one request
regardless of the backend; with `fetch_all=true` against a backend of 2500
records served in pages of limit 1000 it issues exactly 3 requests and
returns all 2500 records; the loop stops exactly when a page returns fewer
than `limit` records and otherwise continues at the next offset. -/
theorem c4_paginate :
    (∀ (α : Type) (fetchPage : Nat → List α) (limit fuel : Nat),
      paginate fetchPage limit false (fuel + 1) = some (fetchPage 0, 1)) ∧
    paginate (pageOf db2500 1000) 1000 true 3 = some (db2500, 3) ∧
    (∀ (α : Type) (fetchPage : Nat → List α) (limit : Nat) (fetchAll : Bool)
      (offset : Nat) (acc : List α) (reqs fuel : Nat),
      (fetchPage offset).length < limit →
      paginateAux fetchPage limit fetchAll offset acc reqs (fuel + 1)
        = some (acc ++ fetchPage offset, reqs + 1)) ∧
    (∀ (α : Type) (fetchPage : Nat → List α) (limit offset : Nat)
      (acc : List α) (reqs fuel : Nat),
      ¬(fetchPage offset).length < limit →
      paginateAux fetchPage limit true offset acc reqs (fuel + 1)
        = paginateAux fetchPage limit true (offset + limit)
            (acc ++ fetchPage offset) (reqs + 1) fuel) := by
  refine ⟨?_, ?_, ?_, ?_⟩
  · intro α fetchPage limit fuel
    simp [paginate, paginateAux]
  · have h := paginate_honest db2500 1000 (by norm_num) 3 (by rw [db2500_length])
    rw [db2500_length] at h
    norm_num at h
    exact h
  · intro α fetchPage limit fetchAll offset acc reqs fuel h
    simp [paginateAux, h]
  · intro α fetchPage limit offset acc reqs fuel h
    simp only [paginateAux]
    rw [if_neg (by simp [h])]

/-- Witness for `c4_paginate` at concrete backends, exercising both the
stop-when-short and the continue-when-full branches. -/
theorem c4_paginate_witness :
    paginateAux (fun _ => [1, 2]) 5 true 0 [] 0 1 = some ([1, 2], 1) ∧
    paginateAux (fun _ => [1, 2]) 2 true 0 [] 0 2
      = paginateAux (fun _ => [1, 2]) 2 true 2 [1, 2] 1 1 := by
  constructor
  · have h := c4_paginate.2.2.1 Nat (fun _ => [1, 2]) 5 true 0 [] 0 0 (by norm_num)
    simpa using h
  · have h := c4_paginate.2.2.2 Nat (fun _ => [1, 2]) 2 0 [] 0 1 (by norm_num)
    simpa using h

/-! ## Claim C2 -/

/-- Claim C2: `get_annotations` raises a validation error before any network
call for zero filters, for two or more simultaneous filters and for a single
empty-list filter; for exactly one non-empty filter it produces the request
to the annotations endpoint with the corresponding comma-joined query
parameter, e.g. `feed_entry_ids=["entry-1","entry-2"]` becomes
`feed_entry_ids_in=entry-1,entry-2`. -/
theorem c2_get_annotations :
    get_annotations none none none
      = .error "ValidationError: At least one filter must be provided" ∧
    (∀ a b : List String,
      (∃ m, get_annotations (some a) (some b) none = .error m) ∧
      (∃ m, get_annotations (some a) none (some b) = .error m) ∧
      (∃ m, get_annotations none (some a) (some b) = .error m)) ∧
    (∀ a b c : List String,
      ∃ m, get_annotations (some a) (some b) (some c) = .error m) ∧
    (get_annotations (some []) none none
        = .error "ValidationError: feed_entry_ids cannot be an empty list" ∧
      get_annotations none (some []) none
        = .error "ValidationError: topic_ids cannot be an empty list" ∧
      get_annotations none none (some [])
        = .error "ValidationError: user_ids cannot be an empty list") ∧
    (∀ ids : List String, ids ≠ [] →
      get_annotations (some ids) none none
        = .ok ⟨"GET", "/api/v1/core/annotations",
            [("feed_entry_ids_in", commaJoin ids)]⟩ ∧
      get_annotations none (some ids) none
        = .ok ⟨"GET", "/api/v1/core/annotations",
            [("topic_ids_in", commaJoin ids)]⟩ ∧
      get_annotations none none (some ids)
        = .ok ⟨"GET", "/api/v1/core/annotations",
            [("user_ids_in", commaJoin ids)]⟩) ∧
    commaJoin ["entry-1", "entry-2"] = "entry-1,entry-2" := by
  refine ⟨rfl, ?_, ?_, ⟨rfl, rfl, rfl⟩, ?_, rfl⟩
  · intro a b
    exact ⟨⟨_, rfl⟩, ⟨_, rfl⟩, ⟨_, rfl⟩⟩
  · intro a b c
    exact ⟨_, rfl⟩
  · intro ids h
    have hne : ids.isEmpty = false := by
      cases ids with
      | nil => exact absurd rfl h
      | cons x xs => rfl
    refine ⟨?_, ?_, ?_⟩ <;> simp [get_annotations, hne]

/-- Witness for `c2_get_annotations` at the concrete filter list of the spec
example. -/
theorem c2_get_annotations_witness :
    get_annotations (some ["entry-1", "entry-2"]) none none
      = .ok ⟨"GET", "/api/v1/core/annotations",
          [("feed_entry_ids_in", "entry-1,entry-2")]⟩ := by
  have h := (c2_get_annotations.2.2.2.2.1 ["entry-1", "entry-2"] (by simp)).1
  have hj : commaJoin ["entry-1", "entry-2"] = "entry-1,entry-2" := rfl
  rw [hj] at h
  exact h

/-! ## Claim C3 -/

/-- Claim C3 counterexample: the hierarchy assembler returns the column-less
empty frame `pd.DataFrame()` when zero feeds or zero entries were found, and
on that row set the Loaded-state `filter_by_topic(topic_id=...)` and
`filter_by_feed(feed_id=...)` raise `KeyError` instead of returning an empty
result. -/
theorem c3_counterexample :
    filter_by_topic_loaded literalSearch emptyDF (some "topic-1") none
      = .error "KeyError: topic_id" ∧
    filter_by_feed_loaded literalSearch emptyDF (some "feed-1") none
      = .error "KeyError: feed_id" := ⟨rfl, rfl⟩

/-- Claim C3 (amended): on an empty Loaded row set that still carries the
schema columns `topic_id` and `feed_id`, every filter, search and export
operation completes without raising and yields an empty result; only the
column-less empty frame produced by a zero-feed or zero-entry assembly makes
the id-equality filters raise `KeyError` (see the counterexample). -/
theorem c3_empty_rowset_amended (matcher : Bool → String → String → Bool)
    (df : DF) (hrows : df.rows = [])
    (htid : "topic_id" ∈ df.cols) (hfid : "feed_id" ∈ df.cols) :
    (∀ tid tname, ∃ d, filter_by_topic_loaded matcher df tid tname = .ok d ∧ d.rows = []) ∧
    (∀ fid fname, ∃ d, filter_by_feed_loaded matcher df fid fname = .ok d ∧ d.rows = []) ∧
    (∀ s e, (filter_by_date df s e).rows = []) ∧
    (∀ b, (filter_by_active df b).rows = []) ∧
    (∀ ks fs cs ma, (search_entries matcher df ks fs cs ma).rows = []) ∧
    (to_dataframe df).rows = [] := by
  refine ⟨?_, ?_, ?_, ?_, ?_, hrows⟩
  · intro tid tname
    unfold filter_by_topic_loaded
    by_cases h1 : (tid.getD "" == "" && tname.getD "" == "") = true
    · rw [if_pos h1]; exact ⟨df, rfl, hrows⟩
    · rw [if_neg h1]
      by_cases h2 : (tid.getD "" != "") = true
      · rw [if_pos h2, if_pos htid]
        exact ⟨_, rfl, by simp [hrows]⟩
      · rw [if_neg h2]
        by_cases h3 : "topic_name" ∈ df.cols
        · rw [if_pos h3]; exact ⟨_, rfl, by simp [hrows]⟩
        · rw [if_neg h3]; exact ⟨df, rfl, hrows⟩
  · intro fid fname
    unfold filter_by_feed_loaded
    by_cases h1 : (fid.getD "" == "" && fname.getD "" == "") = true
    · rw [if_pos h1]; exact ⟨df, rfl, hrows⟩
    · rw [if_neg h1]
      by_cases h2 : (fid.getD "" != "") = true
      · rw [if_pos h2, if_pos hfid]
        exact ⟨_, rfl, by simp [hrows]⟩
      · rw [if_neg h2]
        by_cases h3 : "feed_name" ∈ df.cols
        · rw [if_pos h3]; exact ⟨_, rfl, by simp [hrows]⟩
        · rw [if_neg h3]; exact ⟨df, rfl, hrows⟩
  · intro s e
    simp only [filter_by_date]
    split
    · exact hrows
    · split
      · exact hrows
      · cases s <;> cases e <;> simp [hrows]
  · intro b
    simp only [filter_by_active]
    split
    · exact hrows
    · simp [hrows]
  · intro ks fs cs ma
    simp only [search_entries]
    split
    · exact hrows
    · split
      · exact hrows
      · split <;> simp [hrows]


/-- Witness for `c3_empty_rowset_amended` on a concrete empty row set that
kept its schema columns. -/
theorem c3_empty_rowset_amended_witness :
    (∃ d, filter_by_topic_loaded literalSearch emptySchemaDF (some "t") none
        = .ok d ∧ d.rows = []) ∧
    (filter_by_date emptySchemaDF (some 0) (some 10)).rows = [] := by
  have h := c3_empty_rowset_amended literalSearch emptySchemaDF rfl
    (by decide) (by decide)
  exact ⟨h.1 (some "t") none, h.2.2.1 (some 0) (some 10)⟩

/-! ## Claim C6 -/

/-- Claim C6: for every loaded row set, keyword list and search-field list,
the rows selected by `search_entries` with `match_all=True` are a subset of
those selected with `match_all=False` (the AND-result is contained in the
OR-result). -/
theorem c6_and_subset_or (matcher : Bool → String → String → Bool) (df : DF)
    (keywords : List String) (searchFields : Option (List String)) (cs : Bool) :
    (search_entries matcher df keywords searchFields cs true).rows
      ⊆ (search_entries matcher df keywords searchFields cs false).rows := by
  intro r hr
  simp only [search_entries] at hr ⊢
  by_cases hk : keywords.isEmpty
  · rw [if_pos hk] at hr ⊢; exact hr
  · rw [if_neg hk] at hr ⊢
    by_cases hf : (mapSearchFields (searchFields.getD [DEFAULT_SEARCH_FIELD])).isEmpty
    · rw [if_pos hf] at hr ⊢; exact hr
    · rw [if_neg hf] at hr ⊢
      rw [if_pos trivial] at hr
      rw [if_neg (by simp)]
      rw [List.mem_filter] at hr ⊢
      refine ⟨hr.1, ?_⟩
      have hall := hr.2
      have hne : keywords ≠ [] := by
        cases keywords with
        | nil => simp at hk
        | cons x xs => simp
      obtain ⟨k0, hk0⟩ := List.exists_mem_of_ne_nil keywords hne
      rw [List.any_eq_true]
      exact ⟨k0, hk0, (List.all_eq_true.mp hall) k0 hk0⟩

/-- Witness for `c6_and_subset_or`: a concrete AND-selected row is also
OR-selected. -/
theorem c6_and_subset_or_witness :
    [("entry_content_markdown", JVal.str "alpha beta")]
      ∈ (search_entries (fun _ _ _ => true)
          ⟨["entry_content_markdown"],
            [[("entry_content_markdown", JVal.str "alpha beta")]]⟩
          ["alpha", "beta"] none false false).rows := by
  apply c6_and_subset_or (fun _ _ _ => true)
    ⟨["entry_content_markdown"], [[("entry_content_markdown", JVal.str "alpha beta")]]⟩
    ["alpha", "beta"] none false
  have h : (search_entries (fun _ _ _ => true)
      ⟨["entry_content_markdown"], [[("entry_content_markdown", JVal.str "alpha beta")]]⟩
      ["alpha", "beta"] none false true).rows
      = [[("entry_content_markdown", JVal.str "alpha beta")]] := rfl
  rw [h]
  exact List.mem_singleton.mpr rfl

/-! ## Claim C7 -/

/-- Claim C7: applying `filter_by_date(start=D)` and then
`filter_by_date(end=D)` to the result equals a single
`filter_by_date(start=D, end=D)` on the original row set, and every
surviving row's published timestamp lies within the inclusive bounds. -/
theorem c7_date_filter (df : DF) (D : Int) :
    filter_by_date (filter_by_date df (some D) none) none (some D)
      = filter_by_date df (some D) (some D) ∧
    ("entry_published_at" ∈ df.cols →
      ∀ r ∈ (filter_by_date df (some D) (some D)).rows,
        ∃ t, getD r "entry_published_at" JVal.null = JVal.num t ∧ D ≤ t ∧ t ≤ D) := by
  constructor
  · by_cases hcol : "entry_published_at" ∈ df.cols
    · simp [filter_by_date, hcol]
    · simp [filter_by_date, hcol]
  · intro hcol r hr
    simp only [filter_by_date] at hr
    rw [if_neg (by simp)] at hr
    rw [if_neg (by simpa using hcol)] at hr
    simp only at hr
    rw [List.mem_filter] at hr
    obtain ⟨hr1, hle⟩ := hr
    rw [List.mem_filter] at hr1
    obtain ⟨_, hge⟩ := hr1
    cases hv : getD r "entry_published_at" JVal.null with
    | num t =>
        rw [hv] at hge hle
        simp only [cellGe] at hge
        simp only [cellLe] at hle
        exact ⟨t, rfl, by simpa using hge, by simpa using hle⟩
    | null => rw [hv] at hge; simp [cellGe] at hge
    | bool b => rw [hv] at hge; simp [cellGe] at hge
    | str s => rw [hv] at hge; simp [cellGe] at hge
    | arr xs => rw [hv] at hge; simp [cellGe] at hge
    | obj fs => rw [hv] at hge; simp [cellGe] at hge

/-- Witness for `c7_date_filter` at a concrete one-row frame whose timestamp
equals the bound. -/
theorem c7_date_filter_witness :
    ∃ t, getD [("entry_published_at", JVal.num 5)] "entry_published_at" JVal.null
        = JVal.num t ∧ (5 : Int) ≤ t ∧ t ≤ 5 := by
  refine (c7_date_filter ⟨["entry_published_at"], [[("entry_published_at", JVal.num 5)]]⟩ 5).2
    (by decide) [("entry_published_at", JVal.num 5)] ?_
  have h : (filter_by_date ⟨["entry_published_at"], [[("entry_published_at", JVal.num 5)]]⟩
      (some 5) (some 5)).rows = [[("entry_published_at", JVal.num 5)]] := rfl
  rw [h]
  exact List.mem_singleton.mpr rfl

/-! ## Claim C8 -/

/-- Claim C8 counterexample: a row whose searched field is null is filled
with the empty string, and the empty-string keyword matches the empty string
(`re.search("", "")` matches), so the null-valued row IS selected — refuting
"never matches" for every keyword. -/
theorem c8_counterexample :
    (search_entries literalSearch nullTitleDF [""] (some ["entry_title"])
        false false).rows = [nullTitleRow] ∧
    getKey nullTitleRow "entry_title" = some JVal.null := ⟨rfl, rfl⟩

/-- Claim C8 (amended): a null value in a searched field is treated as the
empty string, so its field contributes a match exactly when the keyword's
pattern matches the empty string; for keyword lists whose patterns all fail
on the empty string, every selected row owes its selection to a field holding
an actual string (null fields never select it). -/
theorem c8_null_fields_amended (matcher : Bool → String → String → Bool)
    (df : DF) (keywords : List String) (F : List String) (cs ma : Bool)
    (hk : keywords ≠ []) (hf : mapSearchFields F ≠ [])
    (hnull : ∀ k ∈ keywords, matcher cs k "" = false) :
    (∀ (r : Rec) (f k : String), getD r f JVal.null = JVal.null →
      cellMatches (matcher cs) k (getD r f JVal.null) = matcher cs k "") ∧
    (∀ r ∈ (search_entries matcher df keywords (some F) cs ma).rows,
      ∃ f ∈ mapSearchFields F, f ∈ df.cols ∧
        ∃ s, getD r f JVal.null = JVal.str s) := by
  constructor
  · intro r f k hrf
    rw [hrf]
    rfl
  · intro r hr
    simp only [search_entries] at hr
    rw [if_neg (by simpa [List.isEmpty_iff] using hk)] at hr
    rw [if_neg (by simpa [List.isEmpty_iff] using hf)] at hr
    have hmask : ∃ k ∈ keywords,
        rowKeywordMask matcher cs df (mapSearchFields F) k r = true := by
      cases ma with
      | true =>
          rw [if_pos rfl] at hr
          rw [List.mem_filter] at hr
          obtain ⟨k0, hk0⟩ := List.exists_mem_of_ne_nil keywords hk
          exact ⟨k0, hk0, (List.all_eq_true.mp hr.2) k0 hk0⟩
      | false =>
          rw [if_neg (by simp)] at hr
          rw [List.mem_filter] at hr
          obtain ⟨k0, hk0, hm⟩ := List.any_eq_true.mp hr.2
          exact ⟨k0, hk0, hm⟩
    obtain ⟨k0, hk0, hm⟩ := hmask
    rw [rowKeywordMask, List.any_eq_true] at hm
    obtain ⟨f, hfmem, hfm⟩ := hm
    rw [Bool.and_eq_true, decide_eq_true_eq] at hfm
    obtain ⟨hfcols, hcell⟩ := hfm
    cases hv : getD r f JVal.null with
    | str s => exact ⟨f, hfmem, hfcols, s, hv⟩
    | null =>
        rw [hv] at hcell
        rw [show cellMatches (matcher cs) k0 JVal.null = matcher cs k0 "" from rfl] at hcell
        rw [hnull k0 hk0] at hcell
        exact absurd hcell (by simp)
    | bool b => rw [hv] at hcell; simp [cellMatches] at hcell
    | num n => rw [hv] at hcell; simp [cellMatches] at hcell
    | arr xs => rw [hv] at hcell; simp [cellMatches] at hcell
    | obj fs => rw [hv] at hcell; simp [cellMatches] at hcell

/-- Witness for `c8_null_fields_amended` at a concrete frame and a keyword
that fails on the empty string. -/
theorem c8_null_fields_amended_witness :
    ∃ f ∈ mapSearchFields ["entry_title"],
      f ∈ (⟨["entry_title"], [[("entry_title", JVal.str "xy")]]⟩ : DF).cols ∧
        ∃ s, getD [("entry_title", JVal.str "xy")] f JVal.null = JVal.str s := by
  refine (c8_null_fields_amended literalSearch
    ⟨["entry_title"], [[("entry_title", JVal.str "xy")]]⟩ ["x"] ["entry_title"]
    false false (by simp) (by decide) ?_).2
    [("entry_title", JVal.str "xy")] ?_
  · intro k hkmem
    rw [List.mem_singleton] at hkmem
    rw [hkmem]
    rfl
  · have h : (search_entries literalSearch
        ⟨["entry_title"], [[("entry_title", JVal.str "xy")]]⟩ ["x"]
        (some ["entry_title"]) false false).rows
        = [[("entry_title", JVal.str "xy")]] := rfl
    rw [h]
    exact List.mem_singleton.mpr rfl

/-! ## Helper lemmas: schema normalizer and pipelines -/

theorem mem_cols_json (data : List Rec) (C : List String) (c : String)
    (hc : c ∈ C) : c ∈ (json_to_dataframe data C).cols := by
  by_cases hd : data.isEmpty
  · unfold json_to_dataframe
    rw [if_pos hd]
    by_cases hC : C.isEmpty
    · rw [List.isEmpty_iff] at hC
      subst hC
      exact absurd hc (List.not_mem_nil c)
    · rw [if_neg hC]
      exact hc
  · unfold json_to_dataframe
    rw [if_neg hd]
    by_cases hC : C.isEmpty
    · rw [List.isEmpty_iff] at hC
      subst hC
      exact absurd hc (List.not_mem_nil c)
    · rw [if_neg hC]
      simp only
      rw [List.mem_append]
      left
      rw [List.mem_filter]
      refine ⟨hc, ?_⟩
      by_cases h0 : c ∈ discoveryCols data
      · simp [List.mem_append, h0]
      · simp only [List.mem_append, decide_eq_true_eq]
        right
        rw [List.mem_filter]
        simp [hc, h0]

theorem json_rows_eq (data : List Rec) (C : List String) (hd : ¬data.isEmpty) :
    (json_to_dataframe data C).rows
      = data.map (matRow (json_to_dataframe data C).cols) := by
  unfold json_to_dataframe
  rw [if_neg hd]
  by_cases hC : C.isEmpty
  · rw [if_pos hC]
  · rw [if_neg hC]

theorem getKey_matRow (cols : List String) (r : Rec) (c : String)
    (hc : c ∈ cols) : getKey (matRow cols r) c = some (getD r c JVal.null) := by
  induction cols with
  | nil => exact absurd hc (List.not_mem_nil c)
  | cons c0 cs ih =>
      rw [List.mem_cons] at hc
      by_cases h : c0 = c
      · simp [matRow, getKey, h]
      · have hc2 : c ∈ cs := by
          cases hc with
          | inl h2 => exact absurd h2.symm h
          | inr h2 => exact h2
        simpa [matRow, getKey, h] using ih hc2

theorem json_rows_get (data : List Rec) (C : List String) (i : Nat)
    (r0 r1 : Rec) (h0 : data.get? i = some r0)
    (h1 : (json_to_dataframe data C).rows.get? i = some r1) :
    r1 = matRow (json_to_dataframe data C).cols r0 := by
  have hd : ¬data.isEmpty := by
    cases data with
    | nil => simp [List.get?] at h0
    | cons x xs => simp
  rw [json_rows_eq data C hd, List.get?_map, h0] at h1
  simpa using h1.symm

/-! ## Claim C5 -/

/-- Claim C5: on the empty record list `_json_to_dataframe` returns a table
with exactly the expected columns, in order, and zero rows; on any record
list, every expected column is present in the output, and a record missing
that column gets the absent marker in the corresponding row. -/
theorem c5_normalizer :
    (∀ C : List String, json_to_dataframe [] C = ⟨C, []⟩) ∧
    (∀ (data : List Rec) (C : List String), ∀ c ∈ C,
      c ∈ (json_to_dataframe data C).cols) ∧
    (∀ (data : List Rec) (C : List String) (c : String), c ∈ C →
      ∀ (i : Nat) (r0 r1 : Rec), data.get? i = some r0 →
        (json_to_dataframe data C).rows.get? i = some r1 →
        getKey r0 c = none → getKey r1 c = some JVal.null) := by
  refine ⟨?_, ?_, ?_⟩
  · intro C
    cases C with
    | nil => rfl
    | cons c cs => rfl
  · intro data C c hc
    exact mem_cols_json data C c hc
  · intro data C c hc i r0 r1 h0 h1 hmiss
    have hcol : c ∈ (json_to_dataframe data C).cols := mem_cols_json data C c hc
    rw [json_rows_get data C i r0 r1 h0 h1]
    rw [getKey_matRow _ _ _ hcol]
    rw [getD, hmiss]
    rfl

/-- Witness for `c5_normalizer` on a concrete record lacking the expected
`is_active` column. -/
theorem c5_normalizer_witness :
    getKey (matRow (json_to_dataframe [[("id", JVal.str "1")]]
        ["id", "is_active"]).cols [("id", JVal.str "1")]) "is_active"
      = some JVal.null := by
  have h := c5_normalizer.2.2 [[("id", JVal.str "1")]] ["id", "is_active"]
    "is_active" (by simp) 0 [("id", JVal.str "1")]
    (matRow (json_to_dataframe [[("id", JVal.str "1")]] ["id", "is_active"]).cols
      [("id", JVal.str "1")])
    rfl rfl rfl
  exact h

/-! ## Helper lemmas: pipeline stages -/

theorem rows_map_get {f : Rec → Rec} {l : List Rec} {i : Nat} {r : Rec}
    (h : (l.map f).get? i = some r) : ∃ r0, l.get? i = some r0 ∧ r = f r0 := by
  rw [List.get?_map] at h
  cases h0 : l.get? i with
  | none => rw [h0] at h; simp at h
  | some r0 => rw [h0] at h; exact ⟨r0, rfl, by simpa using h.symm⟩

theorem coerceCol_cols (coerce : JVal → JVal) (df : DF) (col : String) :
    (coerceCol coerce df col).cols = df.cols := by
  unfold coerceCol
  split <;> rfl

theorem coerceCols_cols (coerce : JVal → JVal) (L : List String) :
    ∀ df : DF, (coerceCols coerce df L).cols = df.cols := by
  induction L with
  | nil => intro df; rfl
  | cons c cs ih =>
      intro df
      show (coerceCols coerce (coerceCol coerce df c) cs).cols = df.cols
      rw [ih, coerceCol_cols]

theorem coerceCol_get (coerce : JVal → JVal) (df : DF) (col : String) (i : Nat)
    (r : Rec) (h : (coerceCol coerce df col).rows.get? i = some r) :
    ∃ r0, df.rows.get? i = some r0 ∧
      ∀ key, key ≠ col → getKey r key = getKey r0 key := by
  unfold coerceCol at h
  by_cases hc : col ∈ df.cols
  · rw [if_pos hc] at h
    obtain ⟨r0, h0, hr⟩ := rows_map_get h
    exact ⟨r0, h0, fun key hk => by rw [hr, getKey_setKey_ne _ _ _ _ hk]⟩
  · rw [if_neg hc] at h
    exact ⟨r, h, fun key hk => rfl⟩

theorem coerceCols_get (coerce : JVal → JVal) (L : List String) :
    ∀ (df : DF) (i : Nat) (r : Rec),
      (coerceCols coerce df L).rows.get? i = some r →
      ∃ r0, df.rows.get? i = some r0 ∧
        ∀ key, key ∉ L → getKey r key = getKey r0 key := by
  induction L with
  | nil => intro df i r h; exact ⟨r, h, fun key hk => rfl⟩
  | cons c cs ih =>
      intro df i r h
      obtain ⟨r1, h1, hp1⟩ := ih (coerceCol coerce df c) i r h
      obtain ⟨r0, h0, hp0⟩ := coerceCol_get coerce df c i r1 h1
      refine ⟨r0, h0, fun key hk => ?_⟩
      rw [List.mem_cons] at hk
      push_neg at hk
      rw [hp1 key hk.2, hp0 key hk.1]

theorem fillNaTrue_isBool (v : JVal) : ∃ b, fillNaTrue v = JVal.bool b := by
  cases v <;> exact ⟨_, rfl⟩

theorem fillActive_cols (df : DF) : (fillActiveBool df).cols = df.cols := by
  unfold fillActiveBool
  split <;> rfl

theorem fillActive_get (df : DF) (hmem : "is_active" ∈ df.cols) (i : Nat)
    (r : Rec) (h : (fillActiveBool df).rows.get? i = some r) :
    ∃ r0, df.rows.get? i = some r0 ∧
      getKey r "is_active" = some (fillNaTrue (getD r0 "is_active" JVal.null)) ∧
      ∀ key, key ≠ "is_active" → getKey r key = getKey r0 key := by
  unfold fillActiveBool at h
  rw [if_pos hmem] at h
  obtain ⟨r0, h0, hr⟩ := rows_map_get h
  exact ⟨r0, h0, by rw [hr, getKey_setKey_same],
    fun key hk => by rw [hr, getKey_setKey_ne _ _ _ _ hk]⟩

theorem fillActive_mem (df : DF) (hmem : "is_active" ∈ df.cols) (r : Rec)
    (h : r ∈ (fillActiveBool df).rows) :
    ∃ b, getKey r "is_active" = some (JVal.bool b) := by
  unfold fillActiveBool at h
  rw [if_pos hmem] at h
  rw [List.mem_map] at h
  obtain ⟨r0, _, hr⟩ := h
  obtain ⟨b, hb⟩ := fillNaTrue_isBool (getD r0 "is_active" JVal.null)
  exact ⟨b, by rw [← hr, getKey_setKey_same, hb]⟩

theorem setColCopy_get (df : DF) (dst src : String) (i : Nat) (r : Rec)
    (h : (setColCopy df dst src).rows.get? i = some r) :
    ∃ r0, df.rows.get? i = some r0 ∧
      ∀ key, key ≠ dst → getKey r key = getKey r0 key := by
  simp only [setColCopy] at h
  by_cases hs : src ∈ df.cols
  · rw [if_pos hs] at h
    obtain ⟨r0, h0, hr⟩ := rows_map_get h
    exact ⟨r0, h0, fun key hk => by rw [hr, getKey_setKey_ne _ _ _ _ hk]⟩
  · rw [if_neg hs] at h
    obtain ⟨r0, h0, hr⟩ := rows_map_get h
    exact ⟨r0, h0, fun key hk => by rw [hr, getKey_setKey_ne _ _ _ _ hk]⟩

theorem setColCopy_cols_mem (df : DF) (dst src key : String)
    (h : key ∈ df.cols) : key ∈ (setColCopy df dst src).cols := by
  simp only [setColCopy]
  by_cases hs : src ∈ df.cols
  · rw [if_pos hs]
    by_cases hd : dst ∈ df.cols
    · simpa [hd] using h
    · simp [hd, List.mem_append, h]
  · rw [if_neg hs]
    by_cases hd : dst ∈ df.cols
    · simpa [hd] using h
    · simp [hd, List.mem_append, h]

theorem setColConst_get (df : DF) (col : String) (v : JVal) (i : Nat) (r : Rec)
    (h : (setColConst df col v).rows.get? i = some r) :
    ∃ r0, df.rows.get? i = some r0 ∧
      ∀ key, key ≠ col → getKey r key = getKey r0 key := by
  simp only [setColConst] at h
  obtain ⟨r0, h0, hr⟩ := rows_map_get h
  exact ⟨r0, h0, fun key hk => by rw [hr, getKey_setKey_ne _ _ _ _ hk]⟩

theorem flattenTopic_pres (r : Rec) (key : String)
    (h1 : key ≠ "topic_id") (h2 : key ≠ "topic_name") :
    getKey (flattenTopic r) key = getKey r key := by
  unfold flattenTopic
  split
  · rw [getKey_setKey_ne _ _ _ _ h2, getKey_setKey_ne _ _ _ _ h1]
  · rfl

theorem extractAll_get : ∀ (es ps : List Rec), extractAll es = .ok ps →
    ∀ (i : Nat) (r : Rec), ps.get? i = some r →
      ∃ e, es.get? i = some e ∧ extract_metadata_fields e = .ok r := by
  intro es
  induction es with
  | nil =>
      intro ps h i r hr
      simp only [extractAll, Except.ok.injEq] at h
      subst h
      simp [List.get?] at hr
  | cons e es ih =>
      intro ps h i r hr
      unfold extractAll at h
      split at h
      · exact absurd h (by simp)
      · rename_i e2 he
        split at h
        · exact absurd h (by simp)
        · rename_i ps2 hes
          simp only [Except.ok.injEq] at h
          subst h
          cases i with
          | zero =>
              simp only [List.get?] at hr
              refine ⟨e, rfl, ?_⟩
              rw [he]
              exact congrArg Except.ok (by simpa using hr)
          | succ n =>
              simp only [List.get?] at hr
              exact ih ps2 hes n r hr

theorem extract_pres_key (e r : Rec) (h : extract_metadata_fields e = .ok r)
    (key : String)
    (hk : key ∉ ["feed_id", "topic_id", "content_status", "content_timestamp",
      "s3_content_md_path", "s3_content_html_path",
      "s3_aggregated_content_md_path", "extracted_metadata_full"]) :
    getKey r key = getKey e key := by
  simp only [List.mem_cons, List.not_mem_nil, or_false, not_or] at hk
  obtain ⟨k1, k2, k3, k4, k5, k6, k7, k8⟩ := hk
  unfold extract_metadata_fields at h
  split at h
  · simp only [Except.ok.injEq] at h; subst h; rfl
  · simp only [Except.ok.injEq] at h; subst h; rfl
  · simp only [Except.ok.injEq] at h
    subst h
    rw [getKey_setKey_ne _ _ _ _ k8, getKey_setKey_ne _ _ _ _ k7,
      getKey_setKey_ne _ _ _ _ k6, getKey_setKey_ne _ _ _ _ k5,
      getKey_setKey_ne _ _ _ _ k4, getKey_setKey_ne _ _ _ _ k3,
      getKey_setKey_ne _ _ _ _ k2, getKey_setKey_ne _ _ _ _ k1]
  · exact absurd h (by simp)

theorem getD_congr {a b : Rec} (k : String) (d : JVal)
    (h : getKey a k = getKey b k) : getD a k d = getD b k d := by
  rw [getD, getD, h]

theorem fill_coerce_get (coerce : JVal → JVal) (L : List String) (df0 : DF)
    (hmem : "is_active" ∈ df0.cols) (hL : "is_active" ∉ L) (i : Nat) (row : Rec)
    (h : (fillActiveBool (coerceCols coerce df0 L)).rows.get? i = some row) :
    ∃ r2, df0.rows.get? i = some r2 ∧
      getKey row "is_active"
        = some (fillNaTrue (getD r2 "is_active" JVal.null)) := by
  have hm2 : "is_active" ∈ (coerceCols coerce df0 L).cols := by
    rw [coerceCols_cols]
    exact hmem
  obtain ⟨r1, h1, hia, _⟩ := fillActive_get _ hm2 i row h
  obtain ⟨r2, h2, hp⟩ := coerceCols_get coerce L df0 i r1 h1
  refine ⟨r2, h2, ?_⟩
  rw [hia, getD_congr "is_active" JVal.null (hp "is_active" hL)]

/-! ## Claim C9 -/

/-- Claim C9: the DataFrames produced by the `get_topics_df`, `get_feeds_df`
and `get_entries_df` pipelines carry a boolean-typed `is_active` column, and
every input record whose active flag is missing or null is recorded as
`True` (absent active status silently defaults to active). -/
theorem c9_is_active_default (coerce : JVal → JVal) :
    (∀ data : List Rec,
      (∀ r ∈ (get_topics_df_core coerce data).rows,
        ∃ b, getKey r "is_active" = some (JVal.bool b)) ∧
      (∀ (i : Nat) (rec row : Rec), data.get? i = some rec →
        (get_topics_df_core coerce data).rows.get? i = some row →
        (getKey rec "is_active" = none ∨ getKey rec "is_active" = some JVal.null) →
        getKey row "is_active" = some (JVal.bool true))) ∧
    (∀ (data : List Rec) (tid : Option String),
      (∀ r ∈ (get_feeds_df_core coerce data tid).rows,
        ∃ b, getKey r "is_active" = some (JVal.bool b)) ∧
      (∀ (i : Nat) (rec row : Rec), data.get? i = some rec →
        (get_feeds_df_core coerce data none).rows.get? i = some row →
        (getKey rec "is_active" = none ∨ getKey rec "is_active" = some JVal.null) →
        getKey row "is_active" = some (JVal.bool true))) ∧
    (∀ (data : List Rec) (df : DF), get_entries_df_core coerce data = .ok df →
      (∀ r ∈ df.rows, ∃ b, getKey r "is_active" = some (JVal.bool b)) ∧
      (∀ (i : Nat) (rec row : Rec), data.get? i = some rec →
        df.rows.get? i = some row →
        (getKey rec "is_active" = none ∨ getKey rec "is_active" = some JVal.null) →
        getKey row "is_active" = some (JVal.bool true))) := by
  have hact_null : ∀ (rec : Rec),
      (getKey rec "is_active" = none ∨ getKey rec "is_active" = some JVal.null) →
      getD rec "is_active" JVal.null = JVal.null := by
    intro rec hact
    cases hact with
    | inl h => rw [getD, h]; rfl
    | inr h => rw [getD, h]; rfl
  refine ⟨?_, ?_, ?_⟩
  · -- topics pipeline
    intro data
    constructor
    · intro r hr
      have hm : "is_active" ∈ (coerceCols coerce
          (json_to_dataframe data topics_expected_columns)
          ["created_at", "updated_at"]).cols := by
        rw [coerceCols_cols]
        exact mem_cols_json _ _ _ (by simp [topics_expected_columns])
      exact fillActive_mem _ hm r hr
    · intro i rec row h0 h1 hact
      obtain ⟨r2, h2, hrow⟩ := fill_coerce_get coerce ["created_at", "updated_at"]
        (json_to_dataframe data topics_expected_columns)
        (mem_cols_json _ _ _ (by simp [topics_expected_columns]))
        (by simp) i row h1
      have hmat := json_rows_get data topics_expected_columns i rec r2 h0 h2
      have hcol : "is_active"
          ∈ (json_to_dataframe data topics_expected_columns).cols :=
        mem_cols_json _ _ _ (by simp [topics_expected_columns])
      have hk2 : getKey r2 "is_active" = some JVal.null := by
        rw [hmat, getKey_matRow _ _ _ hcol, hact_null rec hact]
      have hval : getD r2 "is_active" JVal.null = JVal.null := by
        rw [getD, hk2]
        rfl
      rw [hrow, hval]
      rfl
  · -- feeds pipeline
    intro data tid
    constructor
    · intro r hr
      have hm : "is_active" ∈ (coerceCols coerce
          (json_to_dataframe (data.map flattenTopic) feeds_expected_columns)
          ["created_at"]).cols := by
        rw [coerceCols_cols]
        exact mem_cols_json _ _ _ (by simp [feeds_expected_columns])
      have hrb : r ∈ (fillActiveBool (coerceCols coerce
          (json_to_dataframe (data.map flattenTopic) feeds_expected_columns)
          ["created_at"])).rows := by
        simp only [get_feeds_df_core] at hr
        split at hr
        · split at hr
          · exact List.mem_of_mem_filter hr
          · exact hr
        · exact hr
      exact fillActive_mem _ hm r hrb
    · intro i rec row h0 h1 hact
      have h1b : (fillActiveBool (coerceCols coerce
          (json_to_dataframe (data.map flattenTopic) feeds_expected_columns)
          ["created_at"])).rows.get? i = some row := by
        have hcond : ¬((none : Option String).getD "" ≠ "") := by simp
        simpa only [get_feeds_df_core, if_neg hcond] using h1
      obtain ⟨r2, h2, hrow⟩ := fill_coerce_get coerce ["created_at"]
        (json_to_dataframe (data.map flattenTopic) feeds_expected_columns)
        (mem_cols_json _ _ _ (by simp [feeds_expected_columns]))
        (by simp) i row h1b
      have h0f : (data.map flattenTopic).get? i = some (flattenTopic rec) := by
        rw [List.get?_map, h0]
        rfl
      have hmat := json_rows_get (data.map flattenTopic) feeds_expected_columns
        i (flattenTopic rec) r2 h0f h2
      have hcol : "is_active" ∈ (json_to_dataframe (data.map flattenTopic)
          feeds_expected_columns).cols :=
        mem_cols_json _ _ _ (by simp [feeds_expected_columns])
      have hfl : getD (flattenTopic rec) "is_active" JVal.null
          = getD rec "is_active" JVal.null :=
        getD_congr _ _ (flattenTopic_pres rec "is_active" (by simp) (by simp))
      have hk2 : getKey r2 "is_active" = some JVal.null := by
        rw [hmat, getKey_matRow _ _ _ hcol, hfl, hact_null rec hact]
      have hval : getD r2 "is_active" JVal.null = JVal.null := by
        rw [getD, hk2]
        rfl
      rw [hrow, hval]
      rfl
  · -- entries pipeline
    intro data df h
    unfold get_entries_df_core at h
    split at h
    · exact absurd h (by simp)
    · rename_i processed hE
      simp only [Except.ok.injEq] at h
      subst h
      have hmem0 : "is_active"
          ∈ (json_to_dataframe processed entries_expected_columns).cols :=
        mem_cols_json _ _ _ (by simp [entries_expected_columns])
      have hmem1 : "is_active" ∈ (setColCopy
          (json_to_dataframe processed entries_expected_columns)
          "published_at" "published_date").cols :=
        setColCopy_cols_mem _ _ _ _ hmem0
      constructor
      · intro r hr
        simp only [setColConst] at hr
        rw [List.mem_map] at hr
        obtain ⟨r0, hr0, hreq⟩ := hr
        have hm : "is_active" ∈ (coerceCols coerce (setColCopy
            (json_to_dataframe processed entries_expected_columns)
            "published_at" "published_date")
            ["published_at", "created_at", "content_timestamp"]).cols := by
          rw [coerceCols_cols]
          exact hmem1
        obtain ⟨b, hb⟩ := fillActive_mem _ hm r0 hr0
        refine ⟨b, ?_⟩
        rw [← hreq, getKey_setKey_ne _ _ _ _ (by decide), hb]
      · intro i rec row h0 h1 hact
        obtain ⟨r3, h3, hp3⟩ := setColConst_get _ _ _ i row h1
        obtain ⟨r2, h2, hrow2⟩ := fill_coerce_get coerce
          ["published_at", "created_at", "content_timestamp"]
          (setColCopy (json_to_dataframe processed entries_expected_columns)
            "published_at" "published_date")
          hmem1 (by decide) i r3 h3
        obtain ⟨r1, hj, hp1⟩ := setColCopy_get _ _ _ i r2 h2
        have hne : ¬processed.isEmpty := by
          intro hemp
          rw [List.isEmpty_iff] at hemp
          subst hemp
          rw [show (json_to_dataframe [] entries_expected_columns).rows = []
            from rfl] at hj
          simp [List.get?] at hj
        have hroweq := json_rows_eq processed entries_expected_columns hne
        rw [hroweq] at hj
        obtain ⟨p, hpget, hpeq⟩ := rows_map_get hj
        obtain ⟨e, heget, hex⟩ := extractAll_get data processed hE i p hpget
        have herec : e = rec := by
          rw [h0] at heget
          exact (Option.some.inj heget).symm
        subst herec
        have hprec : getD p "is_active" JVal.null
            = getD e "is_active" JVal.null :=
          getD_congr _ _ (extract_pres_key e p hex "is_active" (by decide))
        have hk1 : getKey r1 "is_active" = some JVal.null := by
          rw [hpeq, getKey_matRow _ _ _ hmem0, hprec, hact_null e hact]
        have hval : getD r2 "is_active" JVal.null = JVal.null := by
          rw [getD_congr _ _ (hp1 "is_active" (by decide)), getD, hk1]
          rfl
        rw [hp3 "is_active" (by decide), hrow2, hval]
        rfl

/-- Witness for `c9_is_active_default` on a concrete topic record lacking the
`is_active` key. -/
theorem c9_is_active_default_witness :
    getKey [("id", JVal.str "1"), ("name", JVal.null),
      ("description", JVal.null), ("created_at", JVal.null),
      ("updated_at", JVal.null), ("is_active", JVal.bool true)] "is_active"
      = some (JVal.bool true) := by
  refine ((c9_is_active_default (fun v => v)).1 [[("id", JVal.str "1")]]).2 0
    [("id", JVal.str "1")] _ rfl rfl (Or.inl rfl)

/-! ## Claim C10 -/

/-- Claim C10: with a present, non-null metadata object,
`_extract_metadata_fields` sets `topic_id`, `content_status`,
`content_timestamp` and the three storage-path fields solely from the
metadata (an absent metadata key overwrites any pre-existing top-level value
with the absent marker), while `feed_id` falls back to the record's existing
top-level value only when the metadata lacks the `feed_id` key entirely — a
metadata `feed_id` explicitly null overrides a caller-injected `feed_id` with
null; records with absent or null metadata pass through unchanged. -/
theorem c10_extract_metadata (entry : Rec) :
    (getKey entry "extracted_metadata" = none →
      extract_metadata_fields entry = .ok entry) ∧
    (getKey entry "extracted_metadata" = some JVal.null →
      extract_metadata_fields entry = .ok entry) ∧
    (∀ meta, getKey entry "extracted_metadata" = some (JVal.obj meta) →
      ∃ e, extract_metadata_fields entry = .ok e ∧
        getKey e "feed_id"
          = some (getD meta "feed_id" (getD entry "feed_id" JVal.null)) ∧
        getKey e "topic_id" = some (getD meta "topic_id" JVal.null) ∧
        getKey e "content_status" = some (getD meta "status" JVal.null) ∧
        getKey e "content_timestamp" = some (getD meta "timestamp" JVal.null) ∧
        getKey e "s3_content_md_path"
          = some (getD meta "s3_content_md_path" JVal.null) ∧
        getKey e "s3_content_html_path"
          = some (getD meta "s3_content_html_path" JVal.null) ∧
        getKey e "s3_aggregated_content_md_path"
          = some (getD meta "s3_aggregated_content_md_path" JVal.null) ∧
        (getKey meta "feed_id" = some JVal.null →
          getKey e "feed_id" = some JVal.null) ∧
        (getKey meta "topic_id" = none →
          getKey e "topic_id" = some JVal.null)) := by
  refine ⟨?_, ?_, ?_⟩
  · intro h
    unfold extract_metadata_fields
    rw [h]
  · intro h
    unfold extract_metadata_fields
    rw [h]
  · intro meta h
    unfold extract_metadata_fields
    rw [h]
    refine ⟨_, rfl, ?_, ?_, ?_, ?_, ?_, ?_, ?_, ?_, ?_⟩
    · simp [getKey_setKey]
    · simp [getKey_setKey]
    · simp [getKey_setKey]
    · simp [getKey_setKey]
    · simp [getKey_setKey]
    · simp [getKey_setKey]
    · simp [getKey_setKey]
    · intro hm
      simp [getKey_setKey, getD, hm]
    · intro hm
      simp [getKey_setKey, getD, hm]

/-- Witness for `c10_extract_metadata` on a concrete entry whose metadata
holds an explicitly null `feed_id`. -/
theorem c10_extract_metadata_witness :
    ∃ e, extract_metadata_fields entryW = .ok e ∧
      getKey e "feed_id" = some JVal.null := by
  obtain ⟨e, he, hf, _⟩ :=
    (c10_extract_metadata entryW).2.2 [("feed_id", JVal.null)] rfl
  refine ⟨e, he, ?_⟩
  rw [hf]
  rfl

end CarverFeeds
